import Mathlib

/-!
Verification development for the ruckig online trajectory generator header
(`include/ruckig/ruckig.hpp`).  The C++ code is shallowly embedded over ℚ
(the ideal-real semantics of the `double` arithmetic); tolerances such as
`1e-9` are the exact rationals the literals denote.  Durations that the
source represents by `std::numeric_limits<double>::infinity()` are embedded
as `⊤ : WithTop ℚ`.

Bodies that live outside this header (`Profile::integrate`, the `Step1` /
`Step2` solvers, `Brake`, and the `InputParameter` comparison operator from
`parameter.hpp`) are either modelled from the specification (when their
behaviour is pinned down there) or abstracted as oracle parameters.
-/

set_option maxHeartbeats 1000000
set_option maxRecDepth 8000

namespace Ruckig

/-- Modelled from the spec (§6): the `Result` enumeration declared in
`parameter.hpp`: `Working`, `Finished`, `Error`, `ErrorInvalidInput`,
`ErrorExecutionTimeCalculation`, `ErrorSynchronizationCalculation`. -/
inductive Result where
  | Working
  | Finished
  | Error
  | ErrorInvalidInput
  | ErrorExecutionTimeCalculation
  | ErrorSynchronizationCalculation
  deriving DecidableEq

/-- `Profile::Teeth` — the jerk sign pattern. -/
inductive Teeth where
  | UDDU
  | UDUD
  deriving DecidableEq

/-- `Profile::Limits` — which limits are saturated (tag only). -/
inductive Limits where
  | ACC0_ACC1_VEL | VEL | ACC0 | ACC1 | ACC0_ACC1 | ACC0_VEL | ACC1_VEL | NONE
  deriving DecidableEq

/-- `Profile::Direction` (tag only). -/
inductive Direction where
  | UP
  | DOWN
  deriving DecidableEq

/-- Modelled from the spec (§4.1): `Profile::integrate` is declared in the
header ("Integrate with constant jerk for duration t. Returns new position,
new velocity, and new acceleration.") and specified as
`p = p0 + v0·t + a0·t²/2 + j·t³/6`, `v = v0 + a0·t + j·t²/2`, `a = a0 + j·t`.
Returned in the source's tuple order `(p, v, a)`. -/
def integrate (t p0 v0 a0 j : ℚ) : ℚ × ℚ × ℚ :=
  (p0 + v0 * t + a0 * t ^ 2 / 2 + j * t ^ 3 / 6,
   v0 + a0 * t + j * t ^ 2 / 2,
   a0 + j * t)

/-- The `Profile` struct: seven segment durations `t`, their prefix sums
`t_sum`, per-segment jerks `j`, boundary kinematics `a`, `v`, `p`, the
optional brake prefix, and the tag fields. -/
structure Profile where
  limits : Limits
  direction : Direction
  teeth : Teeth
  t : Fin 7 → ℚ
  t_sum : Fin 7 → ℚ
  j : Fin 7 → ℚ
  a : Fin 8 → ℚ
  v : Fin 8 → ℚ
  p : Fin 8 → ℚ
  t_brake : Option ℚ
  t_brakes : Fin 2 → ℚ
  j_brakes : Fin 2 → ℚ
  a_brakes : Fin 2 → ℚ
  v_brakes : Fin 2 → ℚ
  p_brakes : Fin 2 → ℚ
  deriving DecidableEq

/-- An all-zero profile, standing in for C++ default construction. -/
def Profile.default : Profile where
  limits := .NONE
  direction := .UP
  teeth := .UDDU
  t := fun _ => 0
  t_sum := fun _ => 0
  j := fun _ => 0
  a := fun _ => 0
  v := fun _ => 0
  p := fun _ => 0
  t_brake := none
  t_brakes := fun _ => 0
  j_brakes := fun _ => 0
  a_brakes := fun _ => 0
  v_brakes := fun _ => 0
  p_brakes := fun _ => 0

instance : Inhabited Profile := ⟨Profile.default⟩

/-- The tolerance `eps9` (velocity/acceleration feasibility). -/
def eps9 : ℚ := 1 / 1000000000

/-- The tolerance `eps8` (terminal and duration match). -/
def eps8 : ℚ := 1 / 100000000

/-- The tolerance `eps12` (jerk feasibility). -/
def eps12 : ℚ := 1 / 1000000000000

/-- The jerk array filled from the teeth pattern
(`check`, lines 33–37: UDDU = `jf,0,-jf,0,-jf,0,jf`; UDUD = `jf,0,-jf,0,jf,0,-jf`). -/
def teethJ (teeth : Teeth) (jf : ℚ) : Fin 7 → ℚ :=
  match teeth with
  | .UDDU => ![jf, 0, -jf, 0, -jf, 0, jf]
  | .UDUD => ![jf, 0, -jf, 0, jf, 0, -jf]

/-- Read a `Fin 7`-indexed array at a natural index (0 outside range). -/
def tExt (t : Fin 7 → ℚ) (k : ℕ) : ℚ :=
  if h : k < 7 then t ⟨k, h⟩ else 0

/-- The acceleration recurrence of `check`'s integration loop
(line 52: `a[i+1] = a[i] + t[i] * j[i]`). -/
def aSeq (t j : Fin 7 → ℚ) (a0 : ℚ) : ℕ → ℚ
  | 0 => a0
  | k + 1 => aSeq t j a0 k + tExt t k * tExt j k

/-- The velocity recurrence of `check`'s integration loop
(line 53: `v[i+1] = v[i] + t[i] * (a[i] + t[i] * j[i] / 2)`). -/
def vSeq (t j : Fin 7 → ℚ) (a0 v0 : ℚ) : ℕ → ℚ
  | 0 => v0
  | k + 1 => vSeq t j a0 v0 k + tExt t k * (aSeq t j a0 k + tExt t k * tExt j k / 2)

/-- The position recurrence of `check`'s integration loop
(line 54: `p[i+1] = p[i] + t[i] * (v[i] + t[i] * (a[i] / 2 + t[i] * j[i] / 6))`). -/
def pSeq (t j : Fin 7 → ℚ) (a0 v0 p0 : ℚ) : ℕ → ℚ
  | 0 => p0
  | k + 1 => pSeq t j a0 v0 p0 k +
      tExt t k * (vSeq t j a0 v0 k + tExt t k * (aSeq t j a0 k / 2 + tExt t k * tExt j k / 6))

/-- Lines 39–50 of `check`: `t_sum[0] = t[0]`, early `return false` on any
negative duration, `t_sum[i+1] = t_sum[i] + t[i+1]`.  Returns the (possibly
partially updated, as the source leaves it) prefix-sum array and the
"no negative duration seen" flag. -/
def fillTsum (t ts : Fin 7 → ℚ) : (Fin 7 → ℚ) × Bool :=
  let ts := Function.update ts 0 (t 0)
  if t 0 < 0 then (ts, false) else
  if t 1 < 0 then (ts, false) else
  let ts := Function.update ts 1 (ts 0 + t 1)
  if t 2 < 0 then (ts, false) else
  let ts := Function.update ts 2 (ts 1 + t 2)
  if t 3 < 0 then (ts, false) else
  let ts := Function.update ts 3 (ts 2 + t 3)
  if t 4 < 0 then (ts, false) else
  let ts := Function.update ts 4 (ts 3 + t 4)
  if t 5 < 0 then (ts, false) else
  let ts := Function.update ts 5 (ts 4 + t 5)
  if t 6 < 0 then (ts, false) else
  let ts := Function.update ts 6 (ts 5 + t 6)
  (ts, true)

/-- `Profile::check` (unconstrained-duration overload, lines 31–62).  Fills
`j` from the teeth pattern, the prefix sums `t_sum`, and — once all durations
are non-negative — the boundary kinematics `a[1..7]`, `v[1..7]`, `p[1..7]` by
the constant-jerk recurrences, then tests the feasibility conditions:
`|v[3..7]| < |vMax| + 1e-9`, `|a[2..7]| < |aMax| + 1e-9`, and terminal match
within `eps8`.  Returns the updated profile and the boolean verdict. -/
def Profile.check (prof : Profile) (teeth : Teeth) (pf vf af jf vMax aMax : ℚ) :
    Profile × Bool :=
  let jA := teethJ teeth jf
  let prof := { prof with j := jA }
  match fillTsum prof.t prof.t_sum with
  | (ts, false) => ({ prof with t_sum := ts }, false)
  | (ts, true) =>
    let aK : Fin 8 → ℚ := fun i => aSeq prof.t jA (prof.a 0) i
    let vK : Fin 8 → ℚ := fun i => vSeq prof.t jA (prof.a 0) (prof.v 0) i
    let pK : Fin 8 → ℚ := fun i => pSeq prof.t jA (prof.a 0) (prof.v 0) (prof.p 0) i
    let prof := { prof with t_sum := ts, a := aK, v := vK, p := pK }
    (prof,
      (([3, 4, 5, 6, 7] : List (Fin 8)).all fun k => decide (|vK k| < |vMax| + eps9)) &&
      (([2, 3, 4, 5, 6, 7] : List (Fin 8)).all fun k => decide (|aK k| < |aMax| + eps9)) &&
      decide (|pK 7 - pf| < eps8) && decide (|vK 7 - vf| < eps8) &&
      decide (|aK 7 - af| < eps8))

/-- `Profile::check` (constrained-duration overload, lines 64–68): the
unconstrained check, additionally requiring `|t_sum[6] - tf| < 1e-8`. -/
def Profile.checkT (prof : Profile) (teeth : Teeth) (tf pf vf af jf vMax aMax : ℚ) :
    Profile × Bool :=
  let r := prof.check teeth pf vf af jf vMax aMax
  (r.1, r.2 && decide (|r.1.t_sum 6 - tf| < eps8))

/-- `Profile::check` (duration- and jerk-constrained overload, lines 70–73):
`(|jf| < |jMax| + 1e-12) && check(tf, ...)`; the `&&` short-circuits, so the
profile is not touched when the jerk test fails. -/
def Profile.checkTJ (prof : Profile) (teeth : Teeth) (tf pf vf af jf vMax aMax jMax : ℚ) :
    Profile × Bool :=
  if |jf| < |jMax| + eps12 then prof.checkT teeth tf pf vf af jf vMax aMax
  else (prof, false)

/-- The verdict of the duration loop is exactly "all seven durations are
non-negative". -/
lemma fillTsum_snd (t ts : Fin 7 → ℚ) :
    ((fillTsum t ts).2 = true) ↔ ∀ i : Fin 7, 0 ≤ t i := by
  unfold fillTsum
  split_ifs with h0 h1 h2 h3 h4 h5 h6
  · simpa using ⟨(0 : Fin 7), h0⟩
  · simpa using ⟨(1 : Fin 7), h1⟩
  · simpa using ⟨(2 : Fin 7), h2⟩
  · simpa using ⟨(3 : Fin 7), h3⟩
  · simpa using ⟨(4 : Fin 7), h4⟩
  · simpa using ⟨(5 : Fin 7), h5⟩
  · simpa using ⟨(6 : Fin 7), h6⟩
  · simp only [true_iff]
    intro i
    fin_cases i <;> [exact not_lt.mp h0; exact not_lt.mp h1; exact not_lt.mp h2;
      exact not_lt.mp h3; exact not_lt.mp h4; exact not_lt.mp h5; exact not_lt.mp h6]

/-- When no duration is negative, `fillTsum` fills the prefix sums. -/
lemma fillTsum_fst (t ts : Fin 7 → ℚ) (h : ∀ i : Fin 7, 0 ≤ t i) :
    ∀ i : Fin 7, (fillTsum t ts).1 i = ∑ k ∈ Finset.range (i.1 + 1), tExt t k := by
  have hn : ∀ i : Fin 7, ¬ t i < 0 := fun i => not_lt.mpr (h i)
  unfold fillTsum
  simp only [hn 0, hn 1, hn 2, hn 3, hn 4, hn 5, hn 6, if_false]
  intro i
  fin_cases i <;>
    simp +decide [Function.update_apply, Finset.sum_range_succ, tExt]

/-- The feasibility conditions of claim C5, written from the claim's words:
every duration non-negative, `|v[i]| < vMax + 1e-9` for `i ∈ [3,7]`,
`|a[i]| < aMax + 1e-9` for `i ∈ [2,7]`, and terminal match within `1e-8`,
where the kinematics are the constant-jerk forward integration from
`(a[0], v[0], p[0])` with jerks from the teeth pattern. -/
def checkConds (prof : Profile) (teeth : Teeth) (pf vf af jf vMax aMax : ℚ) : Prop :=
  (∀ i : Fin 7, 0 ≤ prof.t i) ∧
  (∀ i : Fin 8, 3 ≤ (i : ℕ) →
    |vSeq prof.t (teethJ teeth jf) (prof.a 0) (prof.v 0) (i : ℕ)| < vMax + eps9) ∧
  (∀ i : Fin 8, 2 ≤ (i : ℕ) →
    |aSeq prof.t (teethJ teeth jf) (prof.a 0) (i : ℕ)| < aMax + eps9) ∧
  |pSeq prof.t (teethJ teeth jf) (prof.a 0) (prof.v 0) (prof.p 0) 7 - pf| < eps8 ∧
  |vSeq prof.t (teethJ teeth jf) (prof.a 0) (prof.v 0) 7 - vf| < eps8 ∧
  |aSeq prof.t (teethJ teeth jf) (prof.a 0) 7 - af| < eps8

/-- The array contents claim C5 asserts for the checked profile: jerks from
the teeth pattern, `t_sum` the prefix sums of `t`, and `a`, `v`, `p` the
constant-jerk forward integration of the unchanged durations. -/
def fillsOK (q prof : Profile) (teeth : Teeth) (jf : ℚ) : Prop :=
  q.j = teethJ teeth jf ∧ q.t = prof.t ∧
  (∀ i : Fin 7, q.t_sum i = ∑ k ∈ Finset.range ((i : ℕ) + 1), tExt prof.t k) ∧
  q.a 0 = prof.a 0 ∧ q.v 0 = prof.v 0 ∧ q.p 0 = prof.p 0 ∧
  ∀ i : Fin 7,
    q.a i.succ = q.a i.castSucc + q.t i * q.j i ∧
    q.v i.succ = q.v i.castSucc + q.t i * (q.a i.castSucc + q.t i * q.j i / 2) ∧
    q.p i.succ = q.p i.castSucc +
      q.t i * (q.v i.castSucc + q.t i * (q.a i.castSucc / 2 + q.t i * q.j i / 6))

/-- Bridging lemma: `all` over the velocity index list is the bounded
quantifier over `Fin 8` from index 3 up. -/
lemma all_ge3 : ∀ P : Fin 8 → Bool,
    ((([3, 4, 5, 6, 7] : List (Fin 8)).all P = true) ↔
      ∀ i : Fin 8, 3 ≤ (i : ℕ) → P i = true) := by decide

/-- Bridging lemma: `all` over the acceleration index list is the bounded
quantifier over `Fin 8` from index 2 up. -/
lemma all_ge2 : ∀ P : Fin 8 → Bool,
    ((([2, 3, 4, 5, 6, 7] : List (Fin 8)).all P = true) ↔
      ∀ i : Fin 8, 2 ≤ (i : ℕ) → P i = true) := by decide

/-- The boolean verdict of the unconstrained `check` overload is exactly the
claimed feasibility conditions (for non-negative limits, where the source's
`|vMax|`, `|aMax|` coincide with `vMax`, `aMax`). -/
lemma check_snd_iff (prof : Profile) (teeth : Teeth) (pf vf af jf vMax aMax : ℚ)
    (hv : 0 ≤ vMax) (ha : 0 ≤ aMax) :
    ((prof.check teeth pf vf af jf vMax aMax).2 = true) ↔
      checkConds prof teeth pf vf af jf vMax aMax := by
  unfold Profile.check
  dsimp only
  have hsnd := fillTsum_snd prof.t prof.t_sum
  rcases hts : fillTsum prof.t prof.t_sum with ⟨ts, b⟩
  rw [hts] at hsnd
  cases b
  case false =>
    have hneg : ¬ ∀ i : Fin 7, 0 ≤ prof.t i := fun hh => by simpa using hsnd.mpr hh
    dsimp only
    constructor
    · intro habs; exact absurd habs (by simp)
    · intro hC; exact absurd hC.1 hneg
  case true =>
    have hall : ∀ i : Fin 7, 0 ≤ prof.t i := hsnd.mp rfl
    dsimp only
    rw [Bool.and_eq_true, Bool.and_eq_true, Bool.and_eq_true, Bool.and_eq_true,
      all_ge3, all_ge2]
    simp only [decide_eq_true_eq, abs_of_nonneg hv, abs_of_nonneg ha]
    unfold checkConds
    constructor
    · rintro ⟨⟨⟨⟨hvs, has⟩, hp⟩, hvv⟩, haa⟩
      exact ⟨hall, hvs, has, hp, hvv, haa⟩
    · rintro ⟨-, hvs, has, hp, hvv, haa⟩
      exact ⟨⟨⟨⟨hvs, has⟩, hp⟩, hvv⟩, haa⟩

/-- For non-negative durations the checked profile's `t_sum` is the prefix
sums of the durations. -/
lemma check_fst_t_sum (prof : Profile) (teeth : Teeth) (pf vf af jf vMax aMax : ℚ)
    (hall : ∀ i : Fin 7, 0 ≤ prof.t i) :
    ∀ i : Fin 7, (prof.check teeth pf vf af jf vMax aMax).1.t_sum i =
      ∑ k ∈ Finset.range ((i : ℕ) + 1), tExt prof.t k := by
  have hfst := fillTsum_fst prof.t prof.t_sum hall
  have hsnd := (fillTsum_snd prof.t prof.t_sum).mpr hall
  unfold Profile.check
  dsimp only
  rcases hts : fillTsum prof.t prof.t_sum with ⟨ts, b⟩
  rw [hts] at hfst hsnd
  cases b
  case false => exact absurd hsnd (by simp)
  case true => exact hfst

/-- The duration-constrained overload adds exactly the duration-match test,
with `t_sum[6]` being the sum of the seven durations. -/
lemma checkT_snd_iff (prof : Profile) (teeth : Teeth) (tf pf vf af jf vMax aMax : ℚ)
    (hv : 0 ≤ vMax) (ha : 0 ≤ aMax) :
    ((prof.checkT teeth tf pf vf af jf vMax aMax).2 = true) ↔
      (checkConds prof teeth pf vf af jf vMax aMax ∧
        |(∑ k ∈ Finset.range 7, tExt prof.t k) - tf| < eps8) := by
  unfold Profile.checkT
  dsimp only
  rw [Bool.and_eq_true, check_snd_iff prof teeth pf vf af jf vMax aMax hv ha,
    decide_eq_true_eq]
  constructor
  · rintro ⟨hC, hT⟩
    have h6 := check_fst_t_sum prof teeth pf vf af jf vMax aMax hC.1 6
    norm_num at h6
    rw [h6] at hT
    exact ⟨hC, hT⟩
  · rintro ⟨hC, hT⟩
    have h6 := check_fst_t_sum prof teeth pf vf af jf vMax aMax hC.1 6
    norm_num at h6
    rw [h6]
    exact ⟨hC, hT⟩

/-- The jerk-constrained overload adds exactly the jerk-magnitude test. -/
lemma checkTJ_snd_iff (prof : Profile) (teeth : Teeth) (tf pf vf af jf vMax aMax jMax : ℚ)
    (hv : 0 ≤ vMax) (ha : 0 ≤ aMax) (hj : 0 ≤ jMax) :
    ((prof.checkTJ teeth tf pf vf af jf vMax aMax jMax).2 = true) ↔
      (|jf| < jMax + eps12 ∧ checkConds prof teeth pf vf af jf vMax aMax ∧
        |(∑ k ∈ Finset.range 7, tExt prof.t k) - tf| < eps8) := by
  unfold Profile.checkTJ
  rw [abs_of_nonneg hj]
  split_ifs with hjf
  · rw [checkT_snd_iff prof teeth tf pf vf af jf vMax aMax hv ha]
    exact ⟨fun h => ⟨hjf, h⟩, fun h => h.2⟩
  · simp [hjf]

/-- When every duration is non-negative, `check` fills the arrays as claimed:
teeth-pattern jerks, prefix-sum `t_sum`, and the constant-jerk forward
integration recurrences for `a`, `v`, `p`. -/
lemma check_fillsOK (prof : Profile) (teeth : Teeth) (pf vf af jf vMax aMax : ℚ)
    (hall : ∀ i : Fin 7, 0 ≤ prof.t i) :
    fillsOK (prof.check teeth pf vf af jf vMax aMax).1 prof teeth jf := by
  have hfst := fillTsum_fst prof.t prof.t_sum hall
  have hsnd := (fillTsum_snd prof.t prof.t_sum).mpr hall
  unfold Profile.check
  dsimp only
  rcases hts : fillTsum prof.t prof.t_sum with ⟨ts, b⟩
  rw [hts] at hfst hsnd
  cases b
  case false => exact absurd hsnd (by simp)
  case true =>
    refine ⟨rfl, rfl, hfst, rfl, rfl, rfl, fun i => ⟨?_, ?_, ?_⟩⟩ <;>
      simp [aSeq, vSeq, pSeq, tExt, Fin.val_succ, Fin.coe_castSucc, i.isLt, Fin.eta]

/-- **C5.**  `Profile::check` fills `j[]` from the teeth pattern, `t_sum` as
prefix sums of `t`, and `a[1..7]`, `v[1..7]`, `p[1..7]` by constant-jerk
forward integration from `(a[0], v[0], p[0])`, and returns `true` iff every
`t[i] ≥ 0`, `|v[i]| < vMax + 1e-9` for `i ∈ [3,7]`, `|a[i]| < aMax + 1e-9`
for `i ∈ [2,7]`, and `|p[7]−pf|, |v[7]−vf|, |a[7]−af| < 1e-8`; the
duration-constrained overload additionally requires `|t_sum[6]−tf| < 1e-8`
and the jerk-constrained overload additionally `|jf| < jMax + 1e-12`
(for non-negative limits `vMax`, `aMax`, `jMax`). -/
theorem claim5_check_characterization (prof : Profile) (teeth : Teeth)
    (tf pf vf af jf vMax aMax jMax : ℚ) (hv : 0 ≤ vMax) (ha : 0 ≤ aMax) (hj : 0 ≤ jMax) :
    (((prof.check teeth pf vf af jf vMax aMax).2 = true) ↔
      checkConds prof teeth pf vf af jf vMax aMax) ∧
    (((prof.checkT teeth tf pf vf af jf vMax aMax).2 = true) ↔
      (checkConds prof teeth pf vf af jf vMax aMax ∧
        |(∑ k ∈ Finset.range 7, tExt prof.t k) - tf| < eps8)) ∧
    (((prof.checkTJ teeth tf pf vf af jf vMax aMax jMax).2 = true) ↔
      (|jf| < jMax + eps12 ∧ checkConds prof teeth pf vf af jf vMax aMax ∧
        |(∑ k ∈ Finset.range 7, tExt prof.t k) - tf| < eps8)) ∧
    ((∀ i : Fin 7, 0 ≤ prof.t i) →
      fillsOK (prof.check teeth pf vf af jf vMax aMax).1 prof teeth jf) :=
  ⟨check_snd_iff prof teeth pf vf af jf vMax aMax hv ha,
   checkT_snd_iff prof teeth tf pf vf af jf vMax aMax hv ha,
   checkTJ_snd_iff prof teeth tf pf vf af jf vMax aMax jMax hv ha hj,
   fun hall => check_fillsOK prof teeth pf vf af jf vMax aMax hall⟩

/-- Witness for C5 at a concrete instance (the all-zero profile checked
against the zero target with unit limits and unit jerk). -/
theorem claim5_witness :
    (((Profile.default.check .UDDU 0 0 0 1 1 1).2 = true) ↔
      checkConds Profile.default .UDDU 0 0 0 1 1 1) ∧
    ((Profile.default.check .UDDU 0 0 0 1 1 1).2 = true) :=
  ⟨(claim5_check_characterization Profile.default .UDDU 0 0 0 0 1 1 1 1
      (by norm_num) (by norm_num) (by norm_num)).1,
   by with_unfolding_all decide⟩

/-- `Block::Interval` (lines 84–86): a forbidden open duration interval. -/
structure Interval where
  left : ℚ
  right : ℚ
  deriving DecidableEq

/-- The `Block` struct (lines 83–97): minimum feasible duration with its
profile, and up to two blocked intervals with the profiles at their right
endpoints. -/
structure Block where
  t_min : ℚ
  p_min : Profile
  a : Option Interval
  b : Option Interval
  p_a : Option Profile
  p_b : Option Profile
  deriving DecidableEq

/-- Strict membership of `t` in an optional open interval
(`a && a->left < t && t < a->right`). -/
def insideIv (iv : Option Interval) (t : WithTop ℚ) : Bool :=
  match iv with
  | some v => decide ((v.left : WithTop ℚ) < t) && decide (t < (v.right : WithTop ℚ))
  | none => false

/-- `Block::is_blocked` (lines 94–96): `t < t_min`, or strictly inside `a`,
or strictly inside `b`.  Takes `WithTop ℚ` because the synchronizer also
probes the `∞` placeholders of absent intervals. -/
def Block.is_blocked (blk : Block) (t : WithTop ℚ) : Bool :=
  decide (t < (blk.t_min : WithTop ℚ)) || insideIv blk.a t || insideIv blk.b t

/-- Lines 204–210 of `synchronize`: the candidate durations, laid out at
indices `3*dof` (`t_min`), `3*dof + 1` (right endpoint of `a`, `∞` if
absent), `3*dof + 2` (right endpoint of `b`, `∞` if absent). -/
def possibleTsyncs {n : ℕ} (blocks : Fin n → Block) : ℕ → WithTop ℚ := fun i =>
  if h : i / 3 < n then
    let blk := blocks ⟨i / 3, h⟩
    match i % 3 with
    | 0 => ((blk.t_min : ℚ) : WithTop ℚ)
    | 1 => (match blk.a with | some iv => ((iv.right : ℚ) : WithTop ℚ) | none => ⊤)
    | _ => (match blk.b with | some iv => ((iv.right : ℚ) : WithTop ℚ) | none => ⊤)
  else ⊤

/-- Lines 213–215: the index array `0, …, 3·DOFs−1` stably sorted by
candidate value (`std::stable_sort` with the strict `<` comparator computes
the unique stable ascending order, here realised by insertion sort). -/
def sortedIdx {n : ℕ} (blocks : Fin n → Block) : List ℕ :=
  (List.range (3 * n)).insertionSort
    (fun i j => possibleTsyncs blocks i ≤ possibleTsyncs blocks j)

/-- The rejection test of the loop at line 219: some axis blocks `τ`, or `τ`
is below the floor `t_min.value_or(0.0)`. -/
def syncRejects {n : ℕ} (blocks : Fin n → Block) (floor : Option ℚ) (τ : WithTop ℚ) : Bool :=
  (List.finRange n).any (fun d => (blocks d).is_blocked τ) ||
    decide (τ < ((floor.getD 0 : ℚ) : WithTop ℚ))

/-- Line 224: `limiting_dof = std::ceil((i + 1.0) / 3) - 1` (floating point
in the source; exact rational arithmetic here). -/
def limDof (i : ℕ) : ℕ := (⌈((i : ℚ) + 1) / 3⌉ - 1).toNat

/-- Lines 226–236: the profile locked in for the limiting axis, selected by
`i % 3`; `p_a.value()` / `p_b.value()` on a disengaged optional raises
`std::bad_optional_access`, embedded as `none`. -/
def selectProfile (blk : Block) (i : ℕ) : Option Profile :=
  match i % 3 with
  | 0 => some blk.p_min
  | 1 => blk.p_a
  | _ => blk.p_b

/-- Outcome of `synchronize`: success (`return true` with `t_sync`,
`limiting_dof` and the updated profile array), exhaustion (`return false`),
or the `std::bad_optional_access` exception from `p_a.value()` /
`p_b.value()`. -/
inductive SyncOut (n : ℕ) where
  | found (t_sync : WithTop ℚ) (limiting_dof : ℕ) (profiles : Fin n → Profile)
  | exhausted
  | crash
  deriving DecidableEq

/-- `Ruckig::synchronize` (lines 195–241): the `DOFs == 1 && !t_min` fast
path returns `(blocks[0].t_min, 0, p_min)` directly; otherwise the
candidates are walked in stable-sorted order, skipping any candidate some
block rejects or that lies below the floor, and the first surviving one is
locked in. -/
def synchronize {n : ℕ} (blocks : Fin n → Block) (t_min : Option ℚ)
    (profiles : Fin n → Profile) : SyncOut n :=
  if h : n = 1 ∧ t_min = none then
    let z : Fin n := ⟨0, Nat.lt_of_lt_of_eq Nat.one_pos h.1.symm⟩
    .found (((blocks z).t_min : ℚ) : WithTop ℚ) 0
      (Function.update profiles z (blocks z).p_min)
  else
    match (sortedIdx blocks).find?
        (fun i => ! syncRejects blocks t_min (possibleTsyncs blocks i)) with
    | none => .exhausted
    | some i =>
      if hd : limDof i < n then
        match selectProfile (blocks ⟨limDof i, hd⟩) i with
        | some prof =>
          .found (possibleTsyncs blocks i) (limDof i)
            (Function.update profiles ⟨limDof i, hd⟩ prof)
        | none => .crash
      else .crash -- unreachable: every candidate index is below 3·DOFs

/-- Claim C6's acceptance rule, written from the claim's words: `τ ≥` the
floor (0 if unspecified) and, for every axis, `τ ≥ t_min` and `τ` not
strictly inside either forbidden interval. -/
def specAccept {n : ℕ} (blocks : Fin n → Block) (floor : Option ℚ) (τ : WithTop ℚ) : Prop :=
  (((floor.getD 0 : ℚ) : WithTop ℚ) ≤ τ) ∧
  ∀ d : Fin n, (((blocks d).t_min : ℚ) : WithTop ℚ) ≤ τ ∧
    (∀ iv, (blocks d).a = some iv → ¬ (((iv.left : ℚ) : WithTop ℚ) < τ ∧ τ < ((iv.right : ℚ) : WithTop ℚ))) ∧
    (∀ iv, (blocks d).b = some iv → ¬ (((iv.left : ℚ) : WithTop ℚ) < τ ∧ τ < ((iv.right : ℚ) : WithTop ℚ)))

instance specAccept.instDecidable {n : ℕ} (blocks : Fin n → Block) (floor : Option ℚ)
    (τ : WithTop ℚ) : Decidable (specAccept blocks floor τ) := by
  unfold specAccept
  infer_instance

/-- Claim C6's described algorithm, written from the claim's words: walk the
stable-sorted candidates, take the first accepted one `τ`, and report
`(τ, idx / 3, profile selected by idx mod 3)` — the selected profile being
`p_min`, `p_a` or `p_b` of the limiting axis (possibly absent). -/
def specSync {n : ℕ} (blocks : Fin n → Block) (floor : Option ℚ) :
    Option (WithTop ℚ × ℕ × Option Profile) :=
  match (sortedIdx blocks).find?
      (fun i => decide (specAccept blocks floor (possibleTsyncs blocks i))) with
  | none => none
  | some i =>
    if hd : i / 3 < n then
      some (possibleTsyncs blocks i, i / 3, selectProfile (blocks ⟨i / 3, hd⟩) i)
    else none

/-- Non-membership characterization of `insideIv`. -/
lemma insideIv_false_iff (iv : Option Interval) (t : WithTop ℚ) :
    insideIv iv t = false ↔
      ∀ v, iv = some v → ¬ (((v.left : ℚ) : WithTop ℚ) < t ∧ t < ((v.right : ℚ) : WithTop ℚ)) := by
  cases iv <;> simp [insideIv]

/-- The loop's rejection test is the negation of the claim's acceptance
rule. -/
lemma syncRejects_iff {n : ℕ} (blocks : Fin n → Block) (floor : Option ℚ) (τ : WithTop ℚ) :
    syncRejects blocks floor τ = false ↔ specAccept blocks floor τ := by
  unfold syncRejects specAccept Block.is_blocked
  simp only [Bool.or_eq_false_iff, List.any_eq_false, List.mem_finRange,
    Bool.not_eq_true, Bool.or_eq_true, not_or, decide_eq_true_eq,
    decide_eq_false_iff_not, not_lt, insideIv_false_iff, true_implies]
  constructor
  · rintro ⟨hd, hfl⟩
    exact ⟨hfl, fun d => ⟨(hd d).1.1, (hd d).1.2, (hd d).2⟩⟩
  · rintro ⟨hfl, hd⟩
    exact ⟨fun d => ⟨⟨(hd d).1, (hd d).2.1⟩, (hd d).2.2⟩, hfl⟩

/-- The code predicate of the candidate walk agrees with the claim's
acceptance predicate. -/
lemma accept_bool {n : ℕ} (blocks : Fin n → Block) (floor : Option ℚ) (τ : WithTop ℚ) :
    (! syncRejects blocks floor τ) = decide (specAccept blocks floor τ) := by
  cases h : syncRejects blocks floor τ
  · simp [(syncRejects_iff blocks floor τ).mp h]
  · have : ¬ specAccept blocks floor τ := fun hs => by
      rw [(syncRejects_iff blocks floor τ).mpr hs] at h
      cases h
    simp [this]

/-- `find?` only depends on the predicate's values on the list. -/
lemma find?_congr {α : Type} (p q : α → Bool) (l : List α)
    (h : ∀ a ∈ l, p a = q a) : l.find? p = l.find? q := by
  induction l with
  | nil => rfl
  | cons x xs ih =>
    simp only [List.find?]
    rw [h x (List.mem_cons_self x xs)]
    cases q x
    · exact ih fun a ha => h a (List.mem_cons_of_mem _ ha)
    · rfl

/-- The floating `ceil((i+1)/3) - 1` of line 224 is integer division by 3. -/
lemma limDof_eq (i : ℕ) : limDof i = i / 3 := by
  have hceil : ⌈((i : ℚ) + 1) / 3⌉ = ((i / 3 : ℕ) : ℤ) + 1 := by
    rw [Int.ceil_eq_iff]
    constructor
    · have h1 : ((i / 3 : ℕ) : ℚ) < ((i : ℚ) + 1) / 3 := by
        rw [lt_div_iff₀ (by norm_num : (0 : ℚ) < 3)]
        exact_mod_cast (by omega : (i / 3) * 3 < i + 1)
      rw [Int.cast_add, Int.cast_one, Int.cast_natCast]
      linarith
    · have h2 : ((i : ℚ) + 1) / 3 ≤ ((i / 3 : ℕ) : ℚ) + 1 := by
        rw [div_le_iff₀ (by norm_num : (0 : ℚ) < 3)]
        exact_mod_cast (by omega : i + 1 ≤ (i / 3 + 1) * 3)
      rw [Int.cast_add, Int.cast_one, Int.cast_natCast]
      linarith
  unfold limDof
  rw [hceil]
  omega

/-- A candidate is the `∞` placeholder exactly when its sub-index points at
an absent interval. -/
lemma possibleTsyncs_eq_top_iff {n : ℕ} (blocks : Fin n → Block) (i : ℕ) (hd : i / 3 < n) :
    possibleTsyncs blocks i = ⊤ ↔
      (i % 3 = 1 ∧ (blocks ⟨i / 3, hd⟩).a = none) ∨
      (i % 3 = 2 ∧ (blocks ⟨i / 3, hd⟩).b = none) := by
  unfold possibleTsyncs
  rw [dif_pos hd]
  have h3 : i % 3 = 0 ∨ i % 3 = 1 ∨ i % 3 = 2 := by omega
  rcases h3 with h | h | h <;> rw [h]
  · simp
  · rcases ha : (blocks ⟨i / 3, hd⟩).a with _ | iv <;> simp [ha]
  · rcases hb : (blocks ⟨i / 3, hd⟩).b with _ | iv <;> simp [hb]

/-- Indices surviving the candidate walk are below `3·DOFs`. -/
lemma find?_sortedIdx_lt {n : ℕ} (blocks : Fin n → Block) (p : ℕ → Bool) (i : ℕ)
    (h : (sortedIdx blocks).find? p = some i) : i < 3 * n := by
  have hmem : i ∈ sortedIdx blocks := List.mem_of_find?_eq_some h
  have : i ∈ List.range (3 * n) := by
    have hperm := List.perm_insertionSort
      (fun i j => possibleTsyncs blocks i ≤ possibleTsyncs blocks j) (List.range (3 * n))
    exact hperm.mem_iff.mp hmem
  simpa using this

/-- `selectProfile` at sub-index 0 is `p_min`. -/
lemma selectProfile_mod0 (blk : Block) (i : ℕ) (h : i % 3 = 0) :
    selectProfile blk i = some blk.p_min := by
  unfold selectProfile
  rw [h]

/-- `selectProfile` at sub-index 1 is `p_a` (the `p_a.value()` access). -/
lemma selectProfile_mod1 (blk : Block) (i : ℕ) (h : i % 3 = 1) :
    selectProfile blk i = blk.p_a := by
  unfold selectProfile
  rw [h]

/-- `selectProfile` at sub-index 2 is `p_b` (the `p_b.value()` access). -/
lemma selectProfile_mod2 (blk : Block) (i : ℕ) (h : i % 3 = 2) :
    selectProfile blk i = blk.p_b := by
  unfold selectProfile
  rw [h]

/-- **C9 (amended).**  Under Step1's block invariant (`p_a` engaged iff
interval `a` present, `p_b` iff `b`), the `p_a.value()` / `p_b.value()`
access in `synchronize` fails precisely when the general path runs and the
first accepted candidate is the `∞` placeholder of an absent interval
(which happens, e.g., whenever the `minimum_duration` floor exceeds every
finite unblocked candidate); for a finite accepted candidate the
accesses always succeed. -/
theorem claim9_amended {n : ℕ} (blocks : Fin n → Block) (floor : Option ℚ)
    (profs : Fin n → Profile)
    (hAB : ∀ d : Fin n, ((blocks d).a.isSome ↔ (blocks d).p_a.isSome) ∧
      ((blocks d).b.isSome ↔ (blocks d).p_b.isSome)) :
    synchronize blocks floor profs = SyncOut.crash ↔
      (¬ (n = 1 ∧ floor = none) ∧
        ∃ i, (sortedIdx blocks).find?
            (fun k => ! syncRejects blocks floor (possibleTsyncs blocks k)) = some i ∧
          possibleTsyncs blocks i = ⊤) := by
  unfold synchronize
  split_ifs with hfp
  · simp [hfp]
  · rcases hf : (sortedIdx blocks).find?
        (fun i => ! syncRejects blocks floor (possibleTsyncs blocks i)) with _ | i
    · simp
    · have hi3 : i < 3 * n := find?_sortedIdx_lt blocks _ i hf
      have hdn : i / 3 < n := by omega
      dsimp only
      rw [limDof_eq i, dif_pos hdn]
      have h3 : i % 3 = 0 ∨ i % 3 = 1 ∨ i % 3 = 2 := by omega
      rcases hs : selectProfile (blocks ⟨i / 3, hdn⟩) i with _ | prof
      · have htop : possibleTsyncs blocks i = ⊤ := by
          rcases h3 with h | h | h
          · rw [selectProfile_mod0 _ _ h] at hs
            exact absurd hs (by simp)
          · rw [selectProfile_mod1 _ _ h] at hs
            have hanone : (blocks ⟨i / 3, hdn⟩).a = none := by
              rcases haopt : (blocks ⟨i / 3, hdn⟩).a with _ | iv
              · rfl
              · have hpa : (blocks ⟨i / 3, hdn⟩).p_a.isSome :=
                  (hAB ⟨i / 3, hdn⟩).1.mp (by simp [haopt])
                rw [hs] at hpa
                simp at hpa
            exact (possibleTsyncs_eq_top_iff blocks i hdn).mpr (Or.inl ⟨h, hanone⟩)
          · rw [selectProfile_mod2 _ _ h] at hs
            have hbnone : (blocks ⟨i / 3, hdn⟩).b = none := by
              rcases hbopt : (blocks ⟨i / 3, hdn⟩).b with _ | iv
              · rfl
              · have hpb : (blocks ⟨i / 3, hdn⟩).p_b.isSome :=
                  (hAB ⟨i / 3, hdn⟩).2.mp (by simp [hbopt])
                rw [hs] at hpb
                simp at hpb
            exact (possibleTsyncs_eq_top_iff blocks i hdn).mpr (Or.inr ⟨h, hbnone⟩)
        exact ⟨fun _ => ⟨hfp, i, rfl, htop⟩, fun _ => rfl⟩
      · have hne : possibleTsyncs blocks i ≠ ⊤ := by
          intro htop
          rcases (possibleTsyncs_eq_top_iff blocks i hdn).mp htop with ⟨h1, ha⟩ | ⟨h2, hb⟩
          · rw [selectProfile_mod1 _ _ h1] at hs
            have hpa : (blocks ⟨i / 3, hdn⟩).p_a.isSome := by simp [hs]
            have ha2 := (hAB ⟨i / 3, hdn⟩).1.mpr hpa
            rw [ha] at ha2
            simp at ha2
          · rw [selectProfile_mod2 _ _ h2] at hs
            have hpb : (blocks ⟨i / 3, hdn⟩).p_b.isSome := by simp [hs]
            have hb2 := (hAB ⟨i / 3, hdn⟩).2.mpr hpb
            rw [hb] at hb2
            simp at hb2
        constructor
        · intro habs
          exact absurd habs (by simp)
        · rintro ⟨-, j, hj, htopj⟩
          have hji : j = i := (Option.some_inj.mp hj).symm
          rw [hji] at htopj
          exact absurd htopj hne

/-- A single-axis block with no forbidden intervals (claim C9's implicit
`p_a`/`p_b` both absent). -/
def cexBlock9 : Block :=
  { t_min := 3, p_min := Profile.default, a := none, b := none, p_a := none, p_b := none }

/-- Counterexample to C9 as stated: with one axis whose block has `t_min = 3`
and no forbidden intervals and a floor of `10`, `synchronize` accepts the
`∞` placeholder of the absent interval `a` (sub-index `1 mod 3 = 1`) and the
`p_a.value()` access fails (`std::bad_optional_access`). -/
theorem claim9_counterexample :
    synchronize (fun _ : Fin 1 => cexBlock9) (some 10) (fun _ => Profile.default) =
      SyncOut.crash ∧
    (sortedIdx (fun _ : Fin 1 => cexBlock9)).find?
        (fun k => ! syncRejects (fun _ : Fin 1 => cexBlock9) (some 10)
          (possibleTsyncs (fun _ : Fin 1 => cexBlock9) k)) = some 1 := by
  constructor <;> with_unfolding_all decide

/-- The invariant-satisfying block used in the C9 witness. -/
def wBlock9 : Block :=
  { t_min := 2, p_min := Profile.default, a := none, b := none, p_a := none, p_b := none }

/-- Witness for C9 (amended) at a concrete instance. -/
theorem claim9_witness :
    synchronize (fun _ : Fin 1 => wBlock9) (some 5) (fun _ => Profile.default) =
        SyncOut.crash ↔
      (¬ ((1 : ℕ) = 1 ∧ (some (5 : ℚ)) = none) ∧
        ∃ i, (sortedIdx (fun _ : Fin 1 => wBlock9)).find?
            (fun k => ! syncRejects (fun _ : Fin 1 => wBlock9) (some 5)
              (possibleTsyncs (fun _ : Fin 1 => wBlock9) k)) = some i ∧
          possibleTsyncs (fun _ : Fin 1 => wBlock9) i = ⊤) :=
  claim9_amended (fun _ => wBlock9) (some 5) (fun _ => Profile.default)
    (fun _ => ⟨Iff.rfl, Iff.rfl⟩)

/-- Candidate values for a single axis. -/
lemma possibleTsyncs_one (blocks : Fin 1 → Block) :
    possibleTsyncs blocks 0 = (((blocks 0).t_min : ℚ) : WithTop ℚ) ∧
    possibleTsyncs blocks 1 =
      (match (blocks 0).a with | some iv => ((iv.right : ℚ) : WithTop ℚ) | none => ⊤) ∧
    possibleTsyncs blocks 2 =
      (match (blocks 0).b with | some iv => ((iv.right : ℚ) : WithTop ℚ) | none => ⊤) :=
  ⟨rfl, rfl, rfl⟩

/-- With a single axis, no floor, and a well-formed block (non-negative
`t_min` lying at or below the left end and strictly below the right end of
any forbidden interval), the claim-side walk accepts `t_min` first. -/
lemma specSync_fast (blocks : Fin 1 → Block)
    (h0 : 0 ≤ (blocks 0).t_min)
    (hA : ∀ iv, (blocks 0).a = some iv →
      (blocks 0).t_min ≤ iv.left ∧ (blocks 0).t_min < iv.right)
    (hB : ∀ iv, (blocks 0).b = some iv →
      (blocks 0).t_min ≤ iv.left ∧ (blocks 0).t_min < iv.right) :
    specSync blocks none =
      some ((((blocks 0).t_min : ℚ) : WithTop ℚ), 0, some (blocks 0).p_min) := by
  have hlt1 : possibleTsyncs blocks 0 < possibleTsyncs blocks 1 := by
    rw [(possibleTsyncs_one blocks).1, (possibleTsyncs_one blocks).2.1]
    rcases ha : (blocks 0).a with _ | iv
    · exact WithTop.coe_lt_top _
    · dsimp only
      exact_mod_cast (hA iv ha).2
  have hlt2 : possibleTsyncs blocks 0 < possibleTsyncs blocks 2 := by
    rw [(possibleTsyncs_one blocks).1, (possibleTsyncs_one blocks).2.2]
    rcases hb : (blocks 0).b with _ | iv
    · exact WithTop.coe_lt_top _
    · dsimp only
      exact_mod_cast (hB iv hb).2
  have hacc : specAccept blocks none (possibleTsyncs blocks 0) := by
    rw [(possibleTsyncs_one blocks).1]
    refine ⟨by exact_mod_cast h0, fun d => ?_⟩
    have hd0 : d = 0 := Subsingleton.elim d 0
    subst hd0
    refine ⟨le_refl _, ?_, ?_⟩
    · rintro iv hiv ⟨hl, -⟩
      exact absurd (by exact_mod_cast hl) (not_lt.mpr (hA iv hiv).1)
    · rintro iv hiv ⟨hl, -⟩
      exact absurd (by exact_mod_cast hl) (not_lt.mpr (hB iv hiv).1)
  have hsorted : ∃ rest, sortedIdx blocks = 0 :: rest := by
    have h01 : possibleTsyncs blocks 0 ≤ possibleTsyncs blocks 1 := hlt1.le
    have h02 : possibleTsyncs blocks 0 ≤ possibleTsyncs blocks 2 := hlt2.le
    unfold sortedIdx
    rw [show List.range (3 * 1) = [0, 1, 2] from rfl]
    simp only [List.insertionSort, List.orderedInsert]
    by_cases h12 : possibleTsyncs blocks 1 ≤ possibleTsyncs blocks 2
    · simp only [List.orderedInsert, if_pos h12, if_pos h01]
      exact ⟨_, rfl⟩
    · simp only [List.orderedInsert, if_neg h12, if_pos h02]
      exact ⟨_, rfl⟩
  obtain ⟨rest, hr⟩ := hsorted
  have hfind : (sortedIdx blocks).find?
      (fun i => decide (specAccept blocks none (possibleTsyncs blocks i))) = some 0 := by
    rw [hr]
    exact List.find?_cons_of_pos _ (by simpa using hacc)
  unfold specSync
  rw [hfind]
  rfl

/-- **C6 (amended).**  Under the well-formedness proviso needed by the
single-axis fast path, `synchronize` implements exactly the claim's
description — candidates `{t_min, right(a) (∞ if absent), right(b) (∞ if
absent)}` examined in ascending stable order, first `τ` with `τ ≥` floor,
`τ ≥` every `t_min` and `τ` not strictly inside any forbidden interval
accepted, `limiting_dof = idx / 3`, profile selected by `idx mod 3` —
*provided* the selected optional profile is engaged; when the accepted
candidate's selected profile is absent (the `∞` placeholder of an absent
interval), `synchronize` raises `bad_optional_access` instead of returning. -/
theorem claim6_amended {n : ℕ} (blocks : Fin n → Block) (floor : Option ℚ)
    (profs : Fin n → Profile)
    (hfast : ∀ _ : n = 1, floor = none → ∀ hz : 0 < n,
      0 ≤ (blocks ⟨0, hz⟩).t_min ∧
      (∀ iv, (blocks ⟨0, hz⟩).a = some iv →
        (blocks ⟨0, hz⟩).t_min ≤ iv.left ∧ (blocks ⟨0, hz⟩).t_min < iv.right) ∧
      (∀ iv, (blocks ⟨0, hz⟩).b = some iv →
        (blocks ⟨0, hz⟩).t_min ≤ iv.left ∧ (blocks ⟨0, hz⟩).t_min < iv.right)) :
    (specSync blocks floor = none →
      synchronize blocks floor profs = SyncOut.exhausted) ∧
    (∀ τ d prof, specSync blocks floor = some (τ, d, some prof) →
      ∃ hd : d < n,
        synchronize blocks floor profs =
          SyncOut.found τ d (Function.update profs ⟨d, hd⟩ prof)) ∧
    (∀ τ d, specSync blocks floor = some (τ, d, none) →
      synchronize blocks floor profs = SyncOut.crash) := by
  have hpred : (sortedIdx blocks).find?
      (fun i => ! syncRejects blocks floor (possibleTsyncs blocks i)) =
      (sortedIdx blocks).find?
      (fun i => decide (specAccept blocks floor (possibleTsyncs blocks i))) :=
    find?_congr _ _ _ fun a _ => accept_bool blocks floor _
  by_cases hfp : n = 1 ∧ floor = none
  · obtain ⟨h1, h2⟩ := hfp
    subst h2
    subst h1
    have hz : (0 : ℕ) < 1 := Nat.one_pos
    obtain ⟨h0, hA, hB⟩ := hfast rfl rfl hz
    have hz0 : (⟨0, hz⟩ : Fin 1) = 0 := rfl
    rw [hz0] at h0 hA hB
    have hspec := specSync_fast blocks h0 hA hB
    have hsync : synchronize blocks none profs =
        SyncOut.found (((blocks 0).t_min : ℚ) : WithTop ℚ) 0
          (Function.update profs 0 (blocks 0).p_min) := by
      unfold synchronize
      rw [dif_pos ⟨rfl, rfl⟩]
      rfl
    refine ⟨?_, ?_, ?_⟩
    · intro hnone
      rw [hspec] at hnone
      cases hnone
    · intro τ d prof hsome
      rw [hspec] at hsome
      simp only [Option.some_inj, Prod.mk.injEq] at hsome
      obtain ⟨hτ, hd, hprof⟩ := hsome
      subst hτ
      subst hd
      subst hprof
      exact ⟨hz, hsync⟩
    · intro τ d hsome
      rw [hspec] at hsome
      simp at hsome
  · unfold synchronize specSync
    rw [dif_neg hfp, hpred]
    rcases hf : (sortedIdx blocks).find?
        (fun i => decide (specAccept blocks floor (possibleTsyncs blocks i))) with _ | i
    · refine ⟨fun _ => rfl, ?_, ?_⟩
      · intro τ d prof h
        simp at h
      · intro τ d h
        simp at h
    · have hi3 : i < 3 * n := find?_sortedIdx_lt blocks _ i hf
      have hdn : i / 3 < n := by omega
      dsimp only
      rw [limDof_eq i, dif_pos hdn, dif_pos hdn]
      refine ⟨?_, ?_, ?_⟩
      · intro h
        simp at h
      · intro τ d prof hsome
        simp only [Option.some_inj, Prod.mk.injEq] at hsome
        obtain ⟨hτ, hd, hsel⟩ := hsome
        subst hτ
        subst hd
        rw [hsel]
        exact ⟨hdn, rfl⟩
      · intro τ d hsome
        simp only [Option.some_inj, Prod.mk.injEq] at hsome
        obtain ⟨hτ, hd, hsel⟩ := hsome
        rw [hsel]

/-- A single-axis block with no forbidden intervals, probed with a floor
above `t_min` (claim C6's counterexample data). -/
def cexBlock6 : Block :=
  { t_min := 5, p_min := Profile.default, a := none, b := none, p_a := none, p_b := none }

/-- Counterexample to C6 as stated: the claim-side walk accepts the `∞`
placeholder of absent interval `a` (sub-index 1), but `synchronize` does not
return it as `T_sync` — it fails on `p_a.value()` and returns nothing. -/
theorem claim6_counterexample :
    synchronize (fun _ : Fin 1 => cexBlock6) (some 7) (fun _ => Profile.default) =
      SyncOut.crash ∧
    specSync (fun _ : Fin 1 => cexBlock6) (some 7) =
      some ((⊤ : WithTop ℚ), 0, (none : Option Profile)) := by
  constructor <;> with_unfolding_all decide

/-- The well-formed single-axis block used in the C6 witness. -/
def wBlock6 : Block :=
  { t_min := 1, p_min := Profile.default, a := none, b := none, p_a := none, p_b := none }

/-- Witness for C6 (amended) at a concrete single-axis instance. -/
theorem claim6_witness :
    (specSync (fun _ : Fin 1 => wBlock6) none = none →
      synchronize (fun _ : Fin 1 => wBlock6) none (fun _ => Profile.default) =
        SyncOut.exhausted) ∧
    (∀ τ d prof, specSync (fun _ : Fin 1 => wBlock6) none = some (τ, d, some prof) →
      ∃ hd : d < 1,
        synchronize (fun _ : Fin 1 => wBlock6) none (fun _ => Profile.default) =
          SyncOut.found τ d (Function.update (fun _ => Profile.default) ⟨d, hd⟩ prof)) ∧
    (∀ τ d, specSync (fun _ : Fin 1 => wBlock6) none = some (τ, d, none) →
      synchronize (fun _ : Fin 1 => wBlock6) none (fun _ => Profile.default) =
        SyncOut.crash) :=
  claim6_amended (fun _ => wBlock6) none (fun _ => Profile.default)
    (fun _ _ _ => ⟨by norm_num [wBlock6],
      ⟨fun iv h => by simp [wBlock6] at h, fun iv h => by simp [wBlock6] at h⟩⟩)

/-- Modelled from the spec (§6): the `InputParameter` structure from
`parameter.hpp` — per-axis arrays plus the optional `minimum_duration`.
Its `operator!=` compares all fields element-wise with exact equality
(spec §6), which is structural equality here. -/
structure InputParameter (n : ℕ) where
  current_position : Fin n → ℚ
  current_velocity : Fin n → ℚ
  current_acceleration : Fin n → ℚ
  target_position : Fin n → ℚ
  target_velocity : Fin n → ℚ
  target_acceleration : Fin n → ℚ
  max_velocity : Fin n → ℚ
  max_acceleration : Fin n → ℚ
  max_jerk : Fin n → ℚ
  enabled : Fin n → Bool
  minimum_duration : Option ℚ
  deriving DecidableEq

/-- Modelled from the spec (§6): the `OutputParameter` structure — sampled
kinematics, plan duration, the `new_calculation` flag and the per-axis
minimum durations.  The wall-clock `calculation_duration` is real time and
is not modelled. -/
structure OutputParameter (n : ℕ) where
  new_position : Fin n → ℚ
  new_velocity : Fin n → ℚ
  new_acceleration : Fin n → ℚ
  duration : WithTop ℚ
  new_calculation : Bool
  independent_min_durations : Fin n → ℚ
  deriving DecidableEq

/-- The mutable members of `Ruckig<DOFs>` (lines 190–193, 335): cached
input, clock `t`, plan duration `tf`, the stored per-axis profiles, and the
construction-time cycle period `delta_time`. -/
structure RuckigState (n : ℕ) where
  current_input : InputParameter n
  t : ℚ
  tf : WithTop ℚ
  profiles : Fin n → Profile
  delta_time : ℚ
  deriving DecidableEq

/-- Modelled from the spec: oracles for the solver bodies declared but not
defined in this header.  `brake` is `Brake::get_brake_trajectory` (§4.3:
two corrective segment durations and jerks, both zero when the state is
within limits); `step1` is `Step1` (§4.4: the feasible-duration `Block`, or
failure when no valid profile exists); `step2` is `Step2` (§4.5: a profile
of exactly the prescribed duration, or failure). -/
structure Oracles (n : ℕ) where
  brake : ℚ → ℚ → ℚ → ℚ → ℚ → (Fin 2 → ℚ) × (Fin 2 → ℚ)
  step1 : ℚ → ℚ → ℚ → ℚ → ℚ → ℚ → ℚ → ℚ → ℚ → Option Block
  step2 : WithTop ℚ → ℚ → ℚ → ℚ → ℚ → ℚ → ℚ → ℚ → ℚ → ℚ → Option Profile

/-- `Ruckig::validate_input` (lines 339–374).  The `sqrt` comparison
`|target_acceleration| > sqrt(2·jMax·(vMax − |target_velocity|))` is
modelled algebraically: it rejects iff the radicand is non-negative and
`target_acceleration² > radicand` (a negative radicand yields NaN in the
source, every comparison with NaN is false, and the axis passes). -/
def validate_input {n : ℕ} (input : InputParameter n) : Bool :=
  (List.finRange n).all fun dof =>
    !(decide (input.max_velocity dof ≤ 0)) &&
    !(decide (input.max_acceleration dof ≤ 0)) &&
    !(decide (input.max_jerk dof ≤ 0)) &&
    !(decide (input.max_velocity dof < input.target_velocity dof)) &&
    !(decide (input.max_acceleration dof < input.target_acceleration dof)) &&
    !(decide
      (0 ≤ 2 * input.max_jerk dof * (input.max_velocity dof - |input.target_velocity dof|) ∧
       2 * input.max_jerk dof * (input.max_velocity dof - |input.target_velocity dof|) <
         (input.target_acceleration dof) ^ 2))

/-- One axis of `at_time`'s main loop (lines 410–448).  NOTE: the source
computes a zero-jerk sample for a disabled axis (lines 411–413) but the
branch has no `continue`, so execution falls through and the subsequent
brake/profile sampling overwrites that value — the disabled-axis write is
dead, which this embedding mirrors with the unused binding. -/
def sampleDof {n : ℕ} (st : RuckigState n) (time : ℚ) (dof : Fin n) : ℚ × ℚ × ℚ :=
  let _deadDisabledWrite :=
    if st.current_input.enabled dof = false then
      some (integrate time (st.current_input.current_position dof)
        (st.current_input.current_velocity dof)
        (st.current_input.current_acceleration dof) 0)
    else none
  let prof := st.profiles dof
  let rest : ℚ → ℚ × ℚ × ℚ := fun t_diff =>
    if prof.t_sum 6 ≤ t_diff then (prof.p 7, prof.v 7, prof.a 7)
    else
      -- `upper_bound` over the (nondecreasing) prefix sums: the number of
      -- entries ≤ t_diff; entry 6 fails the predicate here, so index < 7
      let index : ℕ := (List.finRange 7).countP fun k => decide (prof.t_sum k ≤ t_diff)
      let t_diff2 := if 0 < index then t_diff - tExt prof.t_sum (index - 1) else t_diff
      if h : index < 7 then
        integrate t_diff2 (prof.p ⟨index, by omega⟩) (prof.v ⟨index, by omega⟩)
          (prof.a ⟨index, by omega⟩) (prof.j ⟨index, h⟩)
      else (0, 0, 0) -- unreachable for a nondecreasing t_sum
  match prof.t_brake with
  | some tb =>
    if time < tb then
      let index : Fin 2 := if time < prof.t_brakes 0 then 0 else 1
      let t_diff2 := if index = 1 then time - prof.t_brakes 0 else time
      integrate t_diff2 (prof.p_brakes index) (prof.v_brakes index)
        (prof.a_brakes index) (prof.j_brakes index)
    else rest (time - tb)
  | none => rest time

/-- `Ruckig::at_time` (lines 401–449): if `time + delta_time > tf`,
extrapolate every axis from the target state with zero jerk over
`time − tf`; otherwise sample each axis from its brake prefix / profile.
The guard makes `tf` finite in the first branch, so `untop' 0` is exact. -/
def atTime {n : ℕ} (st : RuckigState n) (time : ℚ) : Fin n → ℚ × ℚ × ℚ :=
  if ((time + st.delta_time : ℚ) : WithTop ℚ) > st.tf then
    fun dof =>
      integrate (time - st.tf.untop' 0) (st.current_input.target_position dof)
        (st.current_input.target_velocity dof)
        (st.current_input.target_acceleration dof) 0
  else fun dof => sampleDof st time dof

/-- The exceptional exits of `calculate`: the three `throw
std::runtime_error` sites (lines 287, 300, 315; each makes the `return`
on the following line unreachable) and the `std::bad_optional_access`
escaping from `synchronize`.  Exceptions unwind out of `update`. -/
inductive Thrown where
  | step1Error
  | syncError
  | step2Error
  | badOptionalAccess
  deriving DecidableEq

/-- A default `Block` standing in for C++ default construction (the source
leaves `blocks[dof]` of disabled axes indeterminate; nothing proved here
depends on those entries). -/
def Block.default : Block :=
  { t_min := 0, p_min := Profile.default, a := none, b := none, p_a := none, p_b := none }

/-- The per-axis scratch data of `calculate` (lines 255–256): blocks,
post-brake starting states, the profiles being built, and the
`independent_min_durations` output entries. -/
structure PlanScratch (n : ℕ) where
  blocks : Fin n → Block
  p0s : Fin n → ℚ
  v0s : Fin n → ℚ
  a0s : Fin n → ℚ
  profiles : Fin n → Profile
  imd : Fin n → ℚ

/-- One iteration of `calculate`'s brake + Step1 loop (lines 257–293):
skip disabled axes; compute the brake segments, integrate through them
caching the pre-segment states, run Step1 on the post-brake state, and
record the block and `t_min` — or throw on Step1 failure (line 287). -/
def step1Pass {n : ℕ} (or : Oracles n) (input : InputParameter n)
    (sc : PlanScratch n) (dof : Fin n) : Except Thrown (PlanScratch n) :=
  if input.enabled dof = false then .ok sc
  else
    let bj := or.brake (input.current_velocity dof) (input.current_acceleration dof)
      (input.max_velocity dof) (input.max_acceleration dof) (input.max_jerk dof)
    let tb := bj.1
    let jb := bj.2
    let prof0 := { sc.profiles dof with
      t_brakes := tb, j_brakes := jb, t_brake := some (tb 0 + tb 1) }
    let p0 := input.current_position dof
    let v0 := input.current_velocity dof
    let a0 := input.current_acceleration dof
    let step : Profile × ℚ × ℚ × ℚ :=
      if 0 < tb 0 then
        let prof1 := { prof0 with
          p_brakes := Function.update prof0.p_brakes 0 p0,
          v_brakes := Function.update prof0.v_brakes 0 v0,
          a_brakes := Function.update prof0.a_brakes 0 a0 }
        let k1 := integrate (tb 0) p0 v0 a0 (jb 0)
        if 0 < tb 1 then
          let prof2 := { prof1 with
            p_brakes := Function.update prof1.p_brakes 1 k1.1,
            v_brakes := Function.update prof1.v_brakes 1 k1.2.1,
            a_brakes := Function.update prof1.a_brakes 1 k1.2.2 }
          let k2 := integrate (tb 1) k1.1 k1.2.1 k1.2.2 (jb 1)
          (prof2, k2)
        else (prof1, k1)
      else (prof0, p0, v0, a0)
    match or.step1 step.2.1 step.2.2.1 step.2.2.2 (input.target_position dof)
        (input.target_velocity dof) (input.target_acceleration dof)
        (input.max_velocity dof) (input.max_acceleration dof) (input.max_jerk dof) with
    | none => .error .step1Error
    | some blk =>
      .ok { blocks := Function.update sc.blocks dof blk,
            p0s := Function.update sc.p0s dof step.2.1,
            v0s := Function.update sc.v0s dof step.2.2.1,
            a0s := Function.update sc.a0s dof step.2.2.2,
            profiles := Function.update sc.profiles dof step.1,
            imd := Function.update sc.imd dof blk.t_min }

/-- One iteration of `calculate`'s Step2 loop (lines 305–318): skip
disabled axes and the limiting axis; run Step2 with
`t_profile = tf − t_brake.value_or(0)` — or throw on failure (line 315). -/
def step2Pass {n : ℕ} (or : Oracles n) (input : InputParameter n) (tf : WithTop ℚ)
    (limiting : ℕ) (p0s v0s a0s : Fin n → ℚ)
    (profiles : Fin n → Profile) (dof : Fin n) : Except Thrown (Fin n → Profile) :=
  if input.enabled dof = false ∨ (dof : ℕ) = limiting then .ok profiles
  else
    let t_profile : WithTop ℚ :=
      match tf with
      | ⊤ => ⊤
      | (q : ℚ) => ((q - ((profiles dof).t_brake.getD 0) : ℚ) : WithTop ℚ)
    match or.step2 t_profile (p0s dof) (v0s dof) (a0s dof)
        (input.target_position dof) (input.target_velocity dof)
        (input.target_acceleration dof) (input.max_velocity dof)
        (input.max_acceleration dof) (input.max_jerk dof) with
    | none => .error .step2Error
    | some prof => .ok (Function.update profiles dof prof)

/-- Outcome of `calculate`: a returned `Result` with the new object state
and output, or an exception. -/
inductive CalcOut (n : ℕ) where
  | returned (r : Result) (st : RuckigState n) (out : OutputParameter n)
  | thrown (e : Thrown)
  deriving DecidableEq

/-- `Ruckig::calculate` (lines 243–327): cache the input (line 245, before
validation), validate (lines 249–251), run brake + Step1 per enabled axis,
synchronize, and — when `tf > 0` — run Step2 for every enabled non-limiting
axis; on success reset the clock and set `duration` and `new_calculation`.
Planning failures throw (lines 287, 300, 315), making the subsequent
`return Result::Error…` statements unreachable. -/
def calculate {n : ℕ} (or : Oracles n) (st : RuckigState n) (input : InputParameter n)
    (out : OutputParameter n) : CalcOut n :=
  let st := { st with current_input := input }
  if validate_input input = false then .returned .ErrorInvalidInput st out
  else
    let sc0 : PlanScratch n :=
      { blocks := fun _ => Block.default, p0s := fun _ => 0, v0s := fun _ => 0,
        a0s := fun _ => 0, profiles := st.profiles,
        imd := out.independent_min_durations }
    match (List.finRange n).foldlM (step1Pass or input) sc0 with
    | .error e => .thrown e
    | .ok sc =>
      let out := { out with independent_min_durations := sc.imd }
      match synchronize sc.blocks input.minimum_duration sc.profiles with
      | .exhausted => .thrown .syncError
      | .crash => .thrown .badOptionalAccess
      | .found tsync limiting profs1 =>
        let st := { st with tf := tsync }
        match (if (0 : WithTop ℚ) < tsync then
            (List.finRange n).foldlM
              (step2Pass or input tsync limiting sc.p0s sc.v0s sc.a0s) profs1
          else .ok profs1) with
        | .error e => .thrown e
        | .ok profs2 =>
          .returned .Working { st with profiles := profs2, t := 0 }
            { out with duration := tsync, new_calculation := true }

/-- Outcome of `update`: a returned `Result` with the new state, the
output, and whether `calculate` was invoked this cycle — or an exception
unwinding out of `calculate`. -/
inductive UpdateOut (n : ℕ) where
  | returned (r : Result) (st : RuckigState n) (out : OutputParameter n) (calcInvoked : Bool)
  | thrown (e : Thrown)
  deriving DecidableEq

/-- Lines 386–398 of `update`: sample via `at_time(t)`, return `Finished`
when `t + delta_time > tf`, otherwise advance the cached input's current
kinematics to the sampled output and return `Working`. -/
def updateTail {n : ℕ} (st : RuckigState n) (out : OutputParameter n)
    (calcInvoked : Bool) : UpdateOut n :=
  let kin := atTime st st.t
  let out := { out with
    new_position := fun d => (kin d).1,
    new_velocity := fun d => (kin d).2.1,
    new_acceleration := fun d => (kin d).2.2 }
  if ((st.t + st.delta_time : ℚ) : WithTop ℚ) > st.tf then
    .returned .Finished st out calcInvoked
  else
    .returned .Working
      { st with current_input := { st.current_input with
          current_position := out.new_position,
          current_velocity := out.new_velocity,
          current_acceleration := out.new_acceleration } }
      out calcInvoked

/-- `Ruckig::update` (lines 376–399): advance the clock, clear
`new_calculation`, re-plan iff the input differs from the cached one
(mapping any non-`Working` result of `calculate` to `Result::Error`,
line 383), then sample and report. -/
def update {n : ℕ} (or : Oracles n) (st : RuckigState n) (input : InputParameter n)
    (out : OutputParameter n) : UpdateOut n :=
  let st := { st with t := st.t + st.delta_time }
  let out := { out with new_calculation := false }
  if input ≠ st.current_input then
    match calculate or st input out with
    | .thrown e => .thrown e
    | .returned r st1 out1 =>
      if r ≠ .Working then .returned .Error st1 out1 true
      else updateTail st1 out1 true
  else updateTail st out false

/-- **C7.**  For every sample time with `time + delta_time > tf`, `at_time`
sets every axis' output to the target state integrated with zero jerk over
`dt = time − tf`: position `pf + vf·dt + af·dt²/2`, velocity `vf + af·dt`,
acceleration `af` — a non-zero target acceleration is preserved
indefinitely past the end of the plan. -/
theorem claim7_extrapolation {n : ℕ} (st : RuckigState n) (time tfq : ℚ)
    (htf : st.tf = ((tfq : ℚ) : WithTop ℚ)) (h : tfq < time + st.delta_time) (dof : Fin n) :
    atTime st time dof =
      (st.current_input.target_position dof +
         st.current_input.target_velocity dof * (time - tfq) +
         st.current_input.target_acceleration dof * (time - tfq) ^ 2 / 2,
       st.current_input.target_velocity dof +
         st.current_input.target_acceleration dof * (time - tfq),
       st.current_input.target_acceleration dof) := by
  unfold atTime
  rw [htf, if_pos (by exact_mod_cast h)]
  simp only [WithTop.untop'_coe, integrate, Prod.mk.injEq]
  refine ⟨by ring, by ring, by ring⟩

/-- The input used by the C7 witness: targets `(2, 3, 4)`. -/
def wInput7 : InputParameter 1 :=
  { current_position := fun _ => 0, current_velocity := fun _ => 0,
    current_acceleration := fun _ => 0,
    target_position := fun _ => 2, target_velocity := fun _ => 3,
    target_acceleration := fun _ => 4,
    max_velocity := fun _ => 1, max_acceleration := fun _ => 1, max_jerk := fun _ => 1,
    enabled := fun _ => true, minimum_duration := none }

/-- The state used by the C7 witness: `tf = 1`, `delta_time = 1`. -/
def wState7 : RuckigState 1 :=
  { current_input := wInput7, t := 0, tf := ((1 : ℚ) : WithTop ℚ),
    profiles := fun _ => Profile.default, delta_time := 1 }

/-- Witness for C7 at `time = 2` (one second past the end of the plan). -/
theorem claim7_witness :
    atTime wState7 2 0 =
      (wState7.current_input.target_position 0 +
         wState7.current_input.target_velocity 0 * (2 - 1) +
         wState7.current_input.target_acceleration 0 * (2 - 1) ^ 2 / 2,
       wState7.current_input.target_velocity 0 +
         wState7.current_input.target_acceleration 0 * (2 - 1),
       wState7.current_input.target_acceleration 0) :=
  claim7_extrapolation wState7 2 1 rfl (by norm_num [wState7]) 0

/-- **C10.**  For an enabled axis, when `time + delta_time ≤ tf` but the
time elapsed past the axis' brake prefix is at least the profile's total
duration `t_sum[6]`, `at_time` outputs exactly the stored endpoint
`(p[7], v[7], a[7])` held constant. -/
theorem claim10_endpoint_hold {n : ℕ} (st : RuckigState n) (time : ℚ) (dof : Fin n)
    (_hen : st.current_input.enabled dof = true)
    (hwithin : ¬ ((time + st.delta_time : ℚ) : WithTop ℚ) > st.tf)
    (hpos : 0 ≤ (st.profiles dof).t_sum 6)
    (helapsed : (st.profiles dof).t_sum 6 ≤ time - ((st.profiles dof).t_brake.getD 0)) :
    atTime st time dof =
      ((st.profiles dof).p 7, (st.profiles dof).v 7, (st.profiles dof).a 7) := by
  unfold atTime
  rw [if_neg hwithin]
  unfold sampleDof
  dsimp only
  rcases htb : (st.profiles dof).t_brake with _ | tb
  · rw [htb, Option.getD_none, sub_zero] at helapsed
    rw [if_pos helapsed]
  · rw [htb, Option.getD_some] at helapsed
    dsimp only
    have hnlt : ¬ time < tb := by
      intro hlt
      have h0 : (0 : ℚ) ≤ time - tb := le_trans hpos helapsed
      linarith
    rw [if_neg hnlt, if_pos helapsed]

/-- The profile used by the C10 witness: total duration 2, a one-second
brake prefix, endpoint `(9, 8, 7)`. -/
def wProfile10 : Profile :=
  { Profile.default with
    t_sum := (fun _ => 2)
    p := (fun _ => 9)
    v := (fun _ => 8)
    a := (fun _ => 7)
    t_brake := some 1 }

/-- The state used by the C10 witness. -/
def wState10 : RuckigState 1 :=
  { current_input := wInput7, t := 0, tf := ((100 : ℚ) : WithTop ℚ),
    profiles := fun _ => wProfile10, delta_time := 1 }

/-- Witness for C10 at `time = 4` (elapsed past the brake: 3 ≥ 2). -/
theorem claim10_witness :
    atTime wState10 4 0 =
      ((wState10.profiles 0).p 7, (wState10.profiles 0).v 7, (wState10.profiles 0).a 7) :=
  claim10_endpoint_hold wState10 4 0 rfl (by with_unfolding_all decide)
    (by with_unfolding_all decide) (by with_unfolding_all decide)

/-- The disabled-axis input of the C2 failing scenario (current state all
zero). -/
def cexInput2 : InputParameter 1 :=
  { current_position := fun _ => 0, current_velocity := fun _ => 0,
    current_acceleration := fun _ => 0,
    target_position := fun _ => 0, target_velocity := fun _ => 0,
    target_acceleration := fun _ => 0,
    max_velocity := fun _ => 1, max_acceleration := fun _ => 1, max_jerk := fun _ => 1,
    enabled := fun _ => false, minimum_duration := none }

/-- A stored profile whose held endpoint (42) differs from the disabled
axis' zero-jerk sample (0). -/
def cexProfile2 : Profile := { Profile.default with p := (fun _ => 42) }

/-- The state of the C2 failing scenario: `tf = 10`, `delta_time = 1`. -/
def cexState2 : RuckigState 1 :=
  { current_input := cexInput2, t := 0, tf := ((10 : ℚ) : WithTop ℚ),
    profiles := fun _ => cexProfile2, delta_time := 1 }

/-- **C2 (code bug).**  At `time = 1` (with `time + delta_time ≤ tf`) the
disabled axis' output is the stored profile's endpoint `42`, not the
zero-jerk integration of its cached current state (which is `0`): the
disabled-axis branch of `at_time` lacks a `continue`, so its zero-jerk
sample is computed and then overwritten by the profile sampling. -/
theorem claim2_disabled_axis_overwritten :
    cexState2.current_input.enabled 0 = false ∧
    atTime cexState2 1 0 = (42, 0, 0) ∧
    integrate 1 (cexState2.current_input.current_position 0)
      (cexState2.current_input.current_velocity 0)
      (cexState2.current_input.current_acceleration 0) 0 = (0, 0, 0) ∧
    ((42 : ℚ), (0 : ℚ), (0 : ℚ)) ≠ ((0 : ℚ), (0 : ℚ), (0 : ℚ)) := by
  refine ⟨rfl, ?_, ?_, ?_⟩ <;> with_unfolding_all decide

/-- **C3 (amended).**  If the input fails validation, `calculate` returns
`ErrorInvalidInput` before any planning work: the conclusion holds for
every oracle, and the stored profiles, the plan duration `tf` and the
clock `t` are unchanged — but the cached `current_input` IS overwritten
with the (invalid) input, because the assignment at line 245 precedes
validation. -/
theorem claim3_amended {n : ℕ} (or : Oracles n) (st : RuckigState n)
    (input : InputParameter n) (out : OutputParameter n)
    (hbad : validate_input input = false) :
    calculate or st input out =
      CalcOut.returned Result.ErrorInvalidInput { st with current_input := input } out := by
  unfold calculate
  rw [if_pos hbad]

/-- A valid all-zero single-axis input with unit limits. -/
def okInput3 : InputParameter 1 :=
  { current_position := fun _ => 0, current_velocity := fun _ => 0,
    current_acceleration := fun _ => 0,
    target_position := fun _ => 0, target_velocity := fun _ => 0,
    target_acceleration := fun _ => 0,
    max_velocity := fun _ => 1, max_acceleration := fun _ => 1, max_jerk := fun _ => 1,
    enabled := fun _ => true, minimum_duration := none }

/-- An invalid input: `max_velocity = 0` (and a new target). -/
def badInput3 : InputParameter 1 :=
  { okInput3 with max_velocity := (fun _ => 0), target_position := (fun _ => 5) }

/-- A second invalid input (for the witness): `max_jerk = 0`. -/
def badInput3b : InputParameter 1 := { okInput3 with max_jerk := (fun _ => 0) }

/-- A state caching a different (valid) input, with a live plan. -/
def st3 : RuckigState 1 :=
  { current_input := okInput3, t := 3, tf := ((7 : ℚ) : WithTop ℚ),
    profiles := fun _ => Profile.default, delta_time := 1 }

/-- The all-zero output record. -/
def zeroOut (n : ℕ) : OutputParameter n :=
  { new_position := fun _ => 0, new_velocity := fun _ => 0,
    new_acceleration := fun _ => 0, duration := 0, new_calculation := false,
    independent_min_durations := fun _ => 0 }

/-- Oracles whose brake does nothing and whose solvers always fail
(the brake is the §4.3 "both segment durations zero" case). -/
def orNoPlan : Oracles 1 :=
  { brake := fun _ _ _ _ _ => ((fun _ => 0), (fun _ => 0)),
    step1 := fun _ _ _ _ _ _ _ _ _ => none,
    step2 := fun _ _ _ _ _ _ _ _ _ _ => none }

/-- Counterexample to C3 as stated: on an invalid input `calculate` does
return `ErrorInvalidInput` with profiles and `tf` untouched, but the cached
`current_input` is overwritten — it is no longer the previously cached
input. -/
theorem claim3_counterexample :
    calculate orNoPlan st3 badInput3 (zeroOut 1) =
      CalcOut.returned Result.ErrorInvalidInput
        { st3 with current_input := badInput3 } (zeroOut 1) ∧
    ({ st3 with current_input := badInput3 }).current_input ≠ st3.current_input := by
  refine ⟨?_, ?_⟩ <;> with_unfolding_all decide

/-- Witness for C3 (amended) at a concrete invalid input. -/
theorem claim3_witness :
    calculate orNoPlan st3 badInput3b (zeroOut 1) =
      CalcOut.returned Result.ErrorInvalidInput
        { st3 with current_input := badInput3b } (zeroOut 1) :=
  claim3_amended orNoPlan st3 badInput3b (zeroOut 1) (by with_unfolding_all decide)

/-- A valid input differing from the cached one (target `1`). -/
def inV1 : InputParameter 1 := { okInput3 with target_position := (fun _ => 1) }

/-- The same planning request with a `minimum_duration` floor of `10`. -/
def inVmin : InputParameter 1 :=
  { okInput3 with target_position := (fun _ => 1), minimum_duration := some 10 }

/-- A fresh state caching the all-zero input. -/
def stC1 : RuckigState 1 :=
  { current_input := okInput3, t := 0, tf := 0,
    profiles := fun _ => Profile.default, delta_time := 1 }

/-- A block whose three finite candidates (1, 2, 3) all lie below the
floor 10, so the synchronizer exhausts its candidates. -/
def blockSync : Block :=
  { t_min := 1, p_min := Profile.default, a := some ⟨1, 2⟩, b := some ⟨2, 3⟩,
    p_a := some Profile.default, p_b := some Profile.default }

/-- Oracles whose Step1 yields `blockSync` and whose Step2 fails. -/
def orSyncFail : Oracles 1 :=
  { brake := fun _ _ _ _ _ => ((fun _ => 0), (fun _ => 0)),
    step1 := fun _ _ _ _ _ _ _ _ _ => some blockSync,
    step2 := fun _ _ _ _ _ _ _ _ _ _ => none }

/-- A valid two-axis input with targets 1 and 2. -/
def okInput2d : InputParameter 2 :=
  { current_position := fun _ => 0, current_velocity := fun _ => 0,
    current_acceleration := fun _ => 0,
    target_position := ![1, 2], target_velocity := fun _ => 0,
    target_acceleration := fun _ => 0,
    max_velocity := fun _ => 1, max_acceleration := fun _ => 1, max_jerk := fun _ => 1,
    enabled := fun _ => true, minimum_duration := none }

/-- A two-axis state caching a different input. -/
def stC1b : RuckigState 2 :=
  { current_input := { okInput2d with target_position := (fun _ => 0) }, t := 0, tf := 0,
    profiles := fun _ => Profile.default, delta_time := 1 }

/-- Two-axis oracles: Step1 yields an interval-free block whose `t_min` is
the axis' target position (so axis 1 is limiting), Step2 always fails. -/
def orStep2Fail : Oracles 2 :=
  { brake := fun _ _ _ _ _ => ((fun _ => 0), (fun _ => 0)),
    step1 := fun _ _ _ pf _ _ _ _ _ =>
      some { t_min := pf, p_min := Profile.default, a := none, b := none,
             p_a := none, p_b := none },
    step2 := fun _ _ _ _ _ _ _ _ _ _ => none }

/-- **C1 (code bug).**  Whenever planning fails during `update` — Step1
finding no profile, the synchronizer exhausting its candidates, or Step2
failing for a non-limiting axis — the outcome is a thrown
`std::runtime_error`, not the corresponding returned `Result` value: the
`return Result::ErrorExecutionTimeCalculation` /
`ErrorSynchronizationCalculation` statements sit directly after `throw`
and are unreachable. -/
theorem claim1_planning_failures_throw :
    update orNoPlan stC1 inV1 (zeroOut 1) = UpdateOut.thrown Thrown.step1Error ∧
    update orSyncFail stC1 inVmin (zeroOut 1) = UpdateOut.thrown Thrown.syncError ∧
    update orStep2Fail stC1b okInput2d (zeroOut 2) = UpdateOut.thrown Thrown.step2Error := by
  refine ⟨?_, ?_, ?_⟩ <;> with_unfolding_all decide

/-- Modelled from the spec: the `Step1` solver body is not in this header.
For §8 boundary scenario 1 (rest-to-rest `0 → 1` under unit limits) the
spec prescribes a single time-optimal duration `tf ≈ 3.170` with a
symmetric profile and no braking, hence a block with `t_min = 3.17` and no
forbidden intervals (and no `p_a`/`p_b`). -/
def scenario1Block : Block :=
  { t_min := 317 / 100, p_min := Profile.default, a := none, b := none,
    p_a := none, p_b := none }

/-- Oracles realising §8 scenario 1: in-limit state, so the brake produces
zero-length segments (§4.3); Step1 yields `scenario1Block`. -/
def scenario1Oracles : Oracles 1 :=
  { brake := fun _ _ _ _ _ => ((fun _ => 0), (fun _ => 0)),
    step1 := fun _ _ _ _ _ _ _ _ _ => some scenario1Block,
    step2 := fun _ _ _ _ _ _ _ _ _ _ => none }

/-- §8 scenario 6: rest-to-rest `0 → 1`, unit limits, and
`minimum_duration = 10`. -/
def scenario1Input : InputParameter 1 :=
  { current_position := fun _ => 0, current_velocity := fun _ => 0,
    current_acceleration := fun _ => 0,
    target_position := fun _ => 1, target_velocity := fun _ => 0,
    target_acceleration := fun _ => 0,
    max_velocity := fun _ => 1, max_acceleration := fun _ => 1, max_jerk := fun _ => 1,
    enabled := fun _ => true, minimum_duration := some 10 }

/-- The orchestrator before the scenario-6 request (cycle time
`Δt = 0.01` as in §8), caching the same request without the floor. -/
def scenario1State : RuckigState 1 :=
  { current_input := { scenario1Input with minimum_duration := none },
    t := 0, tf := 0, profiles := fun _ => Profile.default, delta_time := 1 / 100 }

/-- **C4 (code bug).**  In §8 scenario 6 (`minimum_duration = 10`), the
synchronizer rejects `t_min = 3.17 < 10`, accepts the `∞` placeholder of
the absent interval `a` (sub-index 1), and crashes on `p_a.value()` —
`update` neither yields `T_sync ≥ 10` nor reaches the target at `t = 10`;
it throws `std::bad_optional_access`. -/
theorem claim4_min_duration_crash :
    update scenario1Oracles scenario1State scenario1Input (zeroOut 1) =
      UpdateOut.thrown Thrown.badOptionalAccess := by
  with_unfolding_all decide

/-- **C8.**  If `update` returned `Working` and the next cycle's input
equals the cached input, the next `update` does not re-plan: `calculate`
is not invoked, `new_calculation` stays `false`, the sampled output is the
continuation of the existing trajectory (same profiles and `tf`) at the
advanced clock `t + Δt`, and the result is `Finished` exactly when the
advanced clock satisfies `t + Δt > tf`. -/
theorem claim8_idempotence {n : ℕ} (or : Oracles n) (st : RuckigState n)
    (input : InputParameter n) (out : OutputParameter n) (st1 : RuckigState n)
    (out1 : OutputParameter n) (ci : Bool)
    (_hfirst : update or st input out = UpdateOut.returned Result.Working st1 out1 ci)
    (input1 : InputParameter n) (hsame : input1 = st1.current_input) :
    ∃ r st2 out2,
      update or st1 input1 out1 = UpdateOut.returned r st2 out2 false ∧
      out2.new_calculation = false ∧
      out2.new_position = (fun d =>
        (atTime { st1 with t := st1.t + st1.delta_time } (st1.t + st1.delta_time) d).1) ∧
      out2.new_velocity = (fun d =>
        (atTime { st1 with t := st1.t + st1.delta_time } (st1.t + st1.delta_time) d).2.1) ∧
      out2.new_acceleration = (fun d =>
        (atTime { st1 with t := st1.t + st1.delta_time } (st1.t + st1.delta_time) d).2.2) ∧
      (r = Result.Finished ↔
        ((st1.t + st1.delta_time + st1.delta_time : ℚ) : WithTop ℚ) > st1.tf) ∧
      (r = Result.Finished ∨ r = Result.Working) := by
  unfold update
  rw [if_neg (by simp [hsame])]
  unfold updateTail
  dsimp only
  by_cases hfin : ((st1.t + st1.delta_time + st1.delta_time : ℚ) : WithTop ℚ) > st1.tf
  · rw [if_pos hfin]
    exact ⟨Result.Finished, _, _, rfl, rfl, rfl, rfl, rfl,
      ⟨fun _ => hfin, fun _ => rfl⟩, Or.inl rfl⟩
  · rw [if_neg hfin]
    exact ⟨Result.Working, _, _, rfl, rfl, rfl, rfl, rfl,
      ⟨fun h => absurd h (by simp), fun h => absurd h hfin⟩, Or.inr rfl⟩

/-- The C8 witness's initial state: cached input equals the request, a
live plan of duration 100. -/
def wState8 : RuckigState 1 :=
  { current_input := okInput3, t := 0, tf := ((100 : ℚ) : WithTop ℚ),
    profiles := fun _ => Profile.default, delta_time := 1 }

/-- The state after the first (Working) cycle of the C8 witness. -/
def wState8b : RuckigState 1 := { wState8 with t := 1 }

/-- Witness for C8 at a concrete instance: the first `update` returns
`Working` without re-planning, and the theorem applies to the second
cycle. -/
theorem claim8_witness :
    ∃ r st2 out2,
      update orNoPlan wState8b okInput3 (zeroOut 1) =
        UpdateOut.returned r st2 out2 false ∧
      out2.new_calculation = false ∧
      out2.new_position = (fun d =>
        (atTime { wState8b with t := wState8b.t + wState8b.delta_time }
          (wState8b.t + wState8b.delta_time) d).1) ∧
      out2.new_velocity = (fun d =>
        (atTime { wState8b with t := wState8b.t + wState8b.delta_time }
          (wState8b.t + wState8b.delta_time) d).2.1) ∧
      out2.new_acceleration = (fun d =>
        (atTime { wState8b with t := wState8b.t + wState8b.delta_time }
          (wState8b.t + wState8b.delta_time) d).2.2) ∧
      (r = Result.Finished ↔
        ((wState8b.t + wState8b.delta_time + wState8b.delta_time : ℚ) : WithTop ℚ) >
          wState8b.tf) ∧
      (r = Result.Finished ∨ r = Result.Working) :=
  claim8_idempotence orNoPlan wState8 okInput3 (zeroOut 1) wState8b (zeroOut 1) false
    (by with_unfolding_all decide) okInput3 rfl

end Ruckig
